import Mathlib

/-!
Verification of the data aggregation and query layer of the
food-transport-emissions dashboard.

The TypeScript source is shallowly embedded: JSON objects become association
lists keyed by strings, JS numbers become rationals, optional fields become
`Option`, and each derived view (`resolve`, `timeSeries`, `intlShare`,
`allRanked`, `filteredFlows`, `getSequentialColor`, `factors` lookup,
`topSources` / `topDest`) is translated definition-by-definition from the
corresponding `useMemo` body or utility function.
-/

namespace FoodEmissions

/-- One route's emission record (`RouteEmissions` in `types/data.ts`). -/
structure RouteEmissions where
  wtw : ℚ
  ttw : ℚ
  wtt : ℚ
  food_miles : ℚ
  value : ℚ
  cost : Option ℚ
deriving Repr, DecidableEq

/-- Per-year entry: optional bilateral and domestic routes
(`CountryYearData` / `CommodityYearData` values). -/
structure YearEntry where
  bilateral : Option RouteEmissions
  domestic : Option RouteEmissions
deriving Repr, DecidableEq

/-- A year-keyed record for one entity (keys are year strings such as "2023"). -/
abbrev YearRecord := List (String × YearEntry)

/-- An entity-keyed dataset (`ConsumerCountries` / `Commodities`): ISO3 code or
commodity name mapped to its year record. -/
abbrev EntityDataset := List (String × YearRecord)

/-- JS object property access `obj[k]`: the value at key `k`, or `undefined`
(`none`) when absent.  JS objects have unique keys, so the first match is the
value. -/
def jsGet {α : Type} : List (String × α) → String → Option α
  | [], _ => none
  | kv :: rest, k => if kv.1 = k then some kv.2 else jsGet rest k

theorem jsGet_mem {α : Type} {l : List (String × α)} {k : String} {v : α}
    (h : jsGet l k = some v) : (k, v) ∈ l := by
  induction l with
  | nil => simp [jsGet] at h
  | cons kv rest ih =>
    simp only [jsGet] at h
    split at h
    · rename_i hcond
      injection h with h2
      subst h2
      rw [← hcond]
      exact List.mem_cons_self _ _
    · exact List.mem_cons_of_mem _ (ih h)

/-- Result of the metric resolution (`bilTtw` / `domTtw` / `totalTtw` /
`totalFm` in `CountryExplorer` and `CommodityExplorer`). -/
structure Resolved where
  bilateral : ℚ
  domestic : ℚ
  total : ℚ
  foodMiles : ℚ
deriving Repr, DecidableEq

/-- The metric resolver, translated from
`CountryExplorer.tsx` lines 37-43 / `CommodityExplorer.tsx` lines 35-41:
`yd = dataset[entityId]?.[year]`, `bilTtw = yd?.bilateral?.ttw ?? 0`,
`domTtw = yd?.domestic?.ttw ?? 0`, `totalTtw = bilTtw + domTtw`,
`totalFm = (yd?.bilateral?.food_miles ?? 0) + (yd?.domestic?.food_miles ?? 0)`. -/
def resolve (dataset : EntityDataset) (entityId year : String) : Resolved :=
  let yd := (jsGet dataset entityId).bind (fun r => jsGet r year)
  let bil := ((yd.bind (fun e => e.bilateral)).map (fun m => m.ttw)).getD 0
  let dom := ((yd.bind (fun e => e.domestic)).map (fun m => m.ttw)).getD 0
  let fm := ((yd.bind (fun e => e.bilateral)).map (fun m => m.food_miles)).getD 0
    + ((yd.bind (fun e => e.domestic)).map (fun m => m.food_miles)).getD 0
  { bilateral := bil, domestic := dom, total := bil + dom, foodMiles := fm }

/-- Non-negativity of one route record's metric fields (the spec's "all fields
are non-negative reals" data-model assumption). -/
def RouteEmissions.nonneg (m : RouteEmissions) : Bool :=
  decide (0 ≤ m.ttw) && decide (0 ≤ m.food_miles)

/-- Non-negativity of a year entry. -/
def YearEntry.nonneg (e : YearEntry) : Bool :=
  e.bilateral.all RouteEmissions.nonneg && e.domestic.all RouteEmissions.nonneg

/-- Non-negativity of every route metric in a dataset. -/
def datasetNonneg (d : EntityDataset) : Bool :=
  d.all fun kv => kv.2.all fun yv => yv.2.nonneg

theorem datasetNonneg_entry {d : EntityDataset} {e y : String}
    {r : YearRecord} {yd : YearEntry}
    (hd : datasetNonneg d = true) (hr : jsGet d e = some r)
    (hy : jsGet r y = some yd) : yd.nonneg = true := by
  have hm := jsGet_mem hr
  have hm2 := jsGet_mem hy
  have h1 := (List.all_eq_true.mp hd) _ hm
  exact (List.all_eq_true.mp h1) _ hm2

theorem resolved_bilateral_nonneg {d : EntityDataset} (e y : String)
    (hd : datasetNonneg d = true) : 0 ≤ (resolve d e y).bilateral := by
  simp only [resolve]
  cases hr : jsGet d e with
  | none => simp [hr]
  | some r =>
    cases hy : jsGet r y with
    | none => simp [hr, hy]
    | some yd =>
      cases hb : yd.bilateral with
      | none => simp [hr, hy, hb]
      | some m =>
        have hn := datasetNonneg_entry hd hr hy
        simp only [YearEntry.nonneg, hb, Option.all_some, Bool.and_eq_true,
          RouteEmissions.nonneg, decide_eq_true_eq] at hn
        simpa [hr, hy, hb] using hn.1.1

theorem resolved_domestic_nonneg {d : EntityDataset} (e y : String)
    (hd : datasetNonneg d = true) : 0 ≤ (resolve d e y).domestic := by
  simp only [resolve]
  cases hr : jsGet d e with
  | none => simp [hr]
  | some r =>
    cases hy : jsGet r y with
    | none => simp [hr, hy]
    | some yd =>
      cases hb : yd.domestic with
      | none => simp [hr, hy, hb]
      | some m =>
        have hn := datasetNonneg_entry hd hr hy
        simp only [YearEntry.nonneg, hb, Option.all_some, Bool.and_eq_true,
          RouteEmissions.nonneg, decide_eq_true_eq] at hn
        simpa [hr, hy, hb] using hn.2.1

/-- C1: for every dataset, entity and year, the metric resolution satisfies
`total = bilateral + domestic`; all three values are non-negative when every
`RouteMetric` field in the dataset is non-negative; and a missing entity,
missing year, or missing route type contributes `0` to its term. -/
theorem resolve_total_split_zero_default (D : EntityDataset) (e y : String)
    (hD : datasetNonneg D = true) :
    (resolve D e y).total = (resolve D e y).bilateral + (resolve D e y).domestic ∧
    0 ≤ (resolve D e y).bilateral ∧
    0 ≤ (resolve D e y).domestic ∧
    0 ≤ (resolve D e y).total ∧
    (jsGet D e = none → resolve D e y = ⟨0, 0, 0, 0⟩) ∧
    (∀ r, jsGet D e = some r → jsGet r y = none → resolve D e y = ⟨0, 0, 0, 0⟩) ∧
    (∀ r yd, jsGet D e = some r → jsGet r y = some yd → yd.bilateral = none →
      (resolve D e y).bilateral = 0) ∧
    (∀ r yd, jsGet D e = some r → jsGet r y = some yd → yd.domestic = none →
      (resolve D e y).domestic = 0) := by
  have hb := resolved_bilateral_nonneg e y hD
  have hd := resolved_domestic_nonneg e y hD
  refine ⟨rfl, hb, hd, ?_, ?_, ?_, ?_, ?_⟩
  · show 0 ≤ (resolve D e y).bilateral + (resolve D e y).domestic
    exact add_nonneg hb hd
  · intro h
    simp [resolve, h]
  · intro r hr hy
    simp [resolve, hr, hy]
  · intro r yd hr hy hbil
    simp [resolve, hr, hy, hbil]
  · intro r yd hr hy hdom
    simp [resolve, hr, hy, hdom]

/-- The spec's §8 scenario dataset: USA with a single 2023 domestic record. -/
def usaMetric : RouteEmissions :=
  { wtw := 0, ttw := 500000, wtt := 0, food_miles := 1000000000, value := 1,
    cost := none }

/-- The USA year record of the §8 scenario. -/
def demoRecord : YearRecord :=
  [("2023", { bilateral := none, domestic := some usaMetric })]

/-- One-entity demo dataset used as a concrete witness input. -/
def demoDataset : EntityDataset := [("USA", demoRecord)]

/-- Witness for C1 at the spec's §8 scenario input. -/
theorem resolve_total_split_zero_default_witness :
    datasetNonneg demoDataset = true ∧
    ((resolve demoDataset "USA" "2023").total
        = (resolve demoDataset "USA" "2023").bilateral
          + (resolve demoDataset "USA" "2023").domestic ∧
      0 ≤ (resolve demoDataset "USA" "2023").bilateral ∧
      0 ≤ (resolve demoDataset "USA" "2023").domestic ∧
      0 ≤ (resolve demoDataset "USA" "2023").total ∧
      (jsGet demoDataset "USA" = none → resolve demoDataset "USA" "2023" = ⟨0, 0, 0, 0⟩) ∧
      (∀ r, jsGet demoDataset "USA" = some r → jsGet r "2023" = none →
        resolve demoDataset "USA" "2023" = ⟨0, 0, 0, 0⟩) ∧
      (∀ r yd, jsGet demoDataset "USA" = some r → jsGet r "2023" = some yd →
        yd.bilateral = none → (resolve demoDataset "USA" "2023").bilateral = 0) ∧
      (∀ r yd, jsGet demoDataset "USA" = some r → jsGet r "2023" = some yd →
        yd.domestic = none → (resolve demoDataset "USA" "2023").domestic = 0)) :=
  ⟨by decide, resolve_total_split_zero_default demoDataset "USA" "2023" (by decide)⟩

/-- JS `Math.round`: round half towards positive infinity, `⌊q + 1/2⌋`. -/
def jsRound (q : ℚ) : ℤ := ⌊q + 1 / 2⌋

/-- One series value, from
`d?.domestic?.ttw ? Math.round(d.domestic.ttw / 1e3) : 0`
(the guard is JS truthiness: a present but zero `ttw` also yields `0`). -/
def seriesCell (o : Option RouteEmissions) : ℤ :=
  match o with
  | some m => if m.ttw ≠ 0 then jsRound (m.ttw / 1000) else 0
  | none => 0

/-- One point of the chart series (`{ year, Domestic, International }`). -/
structure SeriesPoint where
  year : ℕ
  Domestic : ℤ
  International : ℤ
deriving Repr, DecidableEq

/-- The time-series builder, translated from `CountryExplorer.tsx` lines 46-57
/ `CommodityExplorer.tsx` lines 44-55: `if (!countryData) return []`, then
`Array.from({ length: 14 }, (_, i) => ...)` over years `2010 + i`. -/
def timeSeries (dataset : EntityDataset) (entityId : String) : List SeriesPoint :=
  match jsGet dataset entityId with
  | none => []
  | some r =>
    (List.range 14).map fun i =>
      let y := 2010 + i
      let d := jsGet r (toString y)
      { year := y,
        Domestic := seriesCell (d.bind (fun e => e.domestic)),
        International := seriesCell (d.bind (fun e => e.bilateral)) }

/-- C2 counterexample: on a dataset with no entry for the requested entity the
series is empty, not a 14-element zero series ("FRA" is not a key of
`demoDataset`). -/
theorem timeSeries_missing_entity_not_fourteen :
    (timeSeries demoDataset "FRA").length = 0 ∧
    (timeSeries demoDataset "FRA").length ≠ 14 := by
  decide

/-- C2 (amended): when the dataset has an entry for the entity, the series has
exactly 14 elements, years strictly `2010..2023` ascending, and years absent
from the record appear as zeros, never as missing indices.  (When the dataset
has no entry for the entity, the code returns the empty series instead.) -/
theorem timeSeries_fourteen (D : EntityDataset) (e : String) (r : YearRecord)
    (h : jsGet D e = some r) :
    (timeSeries D e).length = 14 ∧
    (timeSeries D e).map (fun p => p.year) =
      [2010, 2011, 2012, 2013, 2014, 2015, 2016, 2017,
       2018, 2019, 2020, 2021, 2022, 2023] ∧
    List.Pairwise (· < ·) ((timeSeries D e).map (fun p => p.year)) ∧
    (∀ p ∈ timeSeries D e, jsGet r (toString p.year) = none →
      p.Domestic = 0 ∧ p.International = 0) := by
  have hyears : (timeSeries D e).map (fun p => p.year) =
      [2010, 2011, 2012, 2013, 2014, 2015, 2016, 2017,
       2018, 2019, 2020, 2021, 2022, 2023] := by
    simp only [timeSeries, h, List.map_map]
    rfl
  refine ⟨?_, hyears, ?_, ?_⟩
  · have := congrArg List.length hyears
    simpa using this
  · rw [hyears]
    decide
  · intro p hp hnone
    simp only [timeSeries, h, List.mem_map] at hp
    obtain ⟨i, _, hpi⟩ := hp
    have hyr : p.year = 2010 + i := by rw [← hpi]
    rw [hyr] at hnone
    rw [← hpi]
    simp [hnone, seriesCell]

/-- Witness for C2 at the demo dataset. -/
theorem timeSeries_fourteen_witness :
    jsGet demoDataset "USA" = some demoRecord ∧
    ((timeSeries demoDataset "USA").length = 14 ∧
      (timeSeries demoDataset "USA").map (fun p => p.year) =
        [2010, 2011, 2012, 2013, 2014, 2015, 2016, 2017,
         2018, 2019, 2020, 2021, 2022, 2023] ∧
      List.Pairwise (· < ·) ((timeSeries demoDataset "USA").map (fun p => p.year)) ∧
      (∀ p ∈ timeSeries demoDataset "USA", jsGet demoRecord (toString p.year) = none →
        p.Domestic = 0 ∧ p.International = 0)) :=
  ⟨by decide, timeSeries_fourteen demoDataset "USA" demoRecord (by decide)⟩

theorem jsRound_zero : jsRound 0 = 0 := by
  rw [jsRound, zero_add, Int.floor_eq_zero_iff]
  constructor <;> norm_num

theorem seriesCell_eq (o : Option RouteEmissions) :
    seriesCell o = jsRound (((o.map (fun m => m.ttw)).getD 0) / 1000) := by
  cases o with
  | none => simp [seriesCell, zero_div, jsRound_zero]
  | some m =>
    by_cases hz : m.ttw = 0
    · simp [seriesCell, hz, zero_div, jsRound_zero]
    · simp [seriesCell, hz]

/-- C8: every emitted series value is the raw resolved metric scaled by the
divisor 1000 and then rounded to the nearest integer (rounding after scaling,
not before). -/
theorem series_value_round_after_scale (D : EntityDataset) (e : String) :
    ∀ p ∈ timeSeries D e,
      p.Domestic = jsRound ((resolve D e (toString p.year)).domestic / 1000) ∧
      p.International = jsRound ((resolve D e (toString p.year)).bilateral / 1000) := by
  intro p hp
  rcases hD : jsGet D e with _ | r
  · rw [timeSeries, hD] at hp
    simp at hp
  · rw [timeSeries, hD] at hp
    simp only [List.mem_map] at hp
    obtain ⟨i, _, hpi⟩ := hp
    have hyr : p.year = 2010 + i := by rw [← hpi]
    rw [hyr, ← hpi]
    constructor
    · show seriesCell _ = _
      rw [seriesCell_eq]
      simp [resolve, hD]
    · show seriesCell _ = _
      rw [seriesCell_eq]
      simp [resolve, hD]

/-- Witness for C8 at the 2010 point of the demo series. -/
theorem series_value_round_after_scale_witness :
    (⟨2010, 0, 0⟩ : SeriesPoint) ∈ timeSeries demoDataset "USA" ∧
    ((⟨2010, 0, 0⟩ : SeriesPoint).Domestic
        = jsRound ((resolve demoDataset "USA" (toString ((2010 : ℕ)))).domestic / 1000) ∧
      (⟨2010, 0, 0⟩ : SeriesPoint).International
        = jsRound ((resolve demoDataset "USA" (toString ((2010 : ℕ)))).bilateral / 1000)) :=
  ⟨by decide, series_value_round_after_scale demoDataset "USA" ⟨2010, 0, 0⟩ (by decide)⟩

/-- Stable insert for a descending sort by a rational key: the new element goes
before the first element whose key is not greater.  Equal keys keep source
order, matching the placement of the stable JS `sort((a, b) => b.ttw - a.ttw)`. -/
def insertDescBy {α : Type} (f : α → ℚ) (x : α) : List α → List α
  | [] => [x]
  | y :: l => if f y ≤ f x then x :: y :: l else y :: insertDescBy f x l

/-- Stable descending sort by a rational key, the model of the stable
`Array.prototype.sort` with comparator `(a, b) => b.ttw - a.ttw`. -/
def sortDescBy {α : Type} (f : α → ℚ) : List α → List α
  | [] => []
  | x :: l => insertDescBy f x (sortDescBy f l)

theorem insertDescBy_perm {α : Type} (f : α → ℚ) (x : α) (l : List α) :
    (insertDescBy f x l).Perm (x :: l) := by
  induction l with
  | nil => exact List.Perm.refl _
  | cons y l ih =>
    rw [insertDescBy]
    split
    · exact List.Perm.refl _
    · exact (List.Perm.cons y ih).trans (List.Perm.swap x y l)

theorem sortDescBy_perm {α : Type} (f : α → ℚ) (l : List α) :
    (sortDescBy f l).Perm l := by
  induction l with
  | nil => exact List.Perm.refl _
  | cons x l ih =>
    exact (insertDescBy_perm f x (sortDescBy f l)).trans (List.Perm.cons x ih)

theorem mem_sortDescBy {α : Type} {f : α → ℚ} {a : α} {l : List α} :
    a ∈ sortDescBy f l ↔ a ∈ l :=
  (sortDescBy_perm f l).mem_iff

theorem length_sortDescBy {α : Type} (f : α → ℚ) (l : List α) :
    (sortDescBy f l).length = l.length :=
  (sortDescBy_perm f l).length_eq

theorem pairwise_insertDescBy {α : Type} {f : α → ℚ} {x : α} {l : List α}
    (h : l.Pairwise (fun a b => f b ≤ f a)) :
    (insertDescBy f x l).Pairwise (fun a b => f b ≤ f a) := by
  induction l with
  | nil => simp [insertDescBy]
  | cons y l ih =>
    rw [insertDescBy]
    rw [List.pairwise_cons] at h
    split
    · rename_i hyx
      rw [List.pairwise_cons]
      refine ⟨?_, List.pairwise_cons.mpr h⟩
      intro z hz
      rcases List.mem_cons.mp hz with hzy | hzl
      · rw [hzy]; exact hyx
      · exact le_trans (h.1 z hzl) hyx
    · rename_i hyx
      rw [List.pairwise_cons]
      refine ⟨?_, ih h.2⟩
      intro z hz
      rcases List.mem_cons.mp ((insertDescBy_perm f x l).mem_iff.mp hz) with hzx | hzl
      · rw [hzx]; exact le_of_not_le hyx
      · exact h.1 z hzl

theorem pairwise_sortDescBy {α : Type} (f : α → ℚ) (l : List α) :
    (sortDescBy f l).Pairwise (fun a b => f b ≤ f a) := by
  induction l with
  | nil => simp [sortDescBy]
  | cons x l ih => exact pairwise_insertDescBy ih

theorem filter_insertDescBy {α : Type} (f : α → ℚ) (x : α) (l : List α) (v : ℚ) :
    (insertDescBy f x l).filter (fun a => decide (f a = v)) =
      if f x = v then x :: l.filter (fun a => decide (f a = v))
      else l.filter (fun a => decide (f a = v)) := by
  induction l with
  | nil =>
    by_cases hx : f x = v <;> simp [insertDescBy, List.filter, hx]
  | cons y l ih =>
    rw [insertDescBy]
    split
    · rename_i hyx
      by_cases hx : f x = v <;> simp [List.filter_cons, hx]
    · rename_i hyx
      by_cases hx : f x = v
      · have hy : ¬ f y = v := by
          intro hyv
          exact hyx (le_of_eq (hyv.trans hx.symm))
        simp [List.filter_cons, hx, hy, ih]
      · simp [List.filter_cons, hx, ih]

theorem filter_sortDescBy {α : Type} (f : α → ℚ) (l : List α) (v : ℚ) :
    (sortDescBy f l).filter (fun a => decide (f a = v)) =
      l.filter (fun a => decide (f a = v)) := by
  induction l with
  | nil => rfl
  | cons x l ih =>
    rw [sortDescBy, filter_insertDescBy]
    by_cases hx : f x = v <;> simp [List.filter_cons, hx, ih]

/-- One entity's ranking entry (`{ name, ttw }` / `{ iso3, name, ttw }`). -/
structure RankedEntry where
  name : String
  ttw : ℚ
deriving Repr, DecidableEq

/-- One entity's ranking entry for a year: the headline metric is
`(d?.bilateral?.ttw ?? 0) + (d?.domestic?.ttw ?? 0)`. -/
def rankEntryOf (yearStr : String) (kv : String × YearRecord) : RankedEntry :=
  let d := jsGet kv.2 yearStr
  { name := kv.1,
    ttw := ((d.bind (fun e => e.bilateral)).map (fun m => m.ttw)).getD 0
      + ((d.bind (fun e => e.domestic)).map (fun m => m.ttw)).getD 0 }

/-- The ranking engine, translated from `CommodityExplorer.tsx` lines 89-94
(the `sorted` list of `allRanked`) and the pre-truncation part of
`topConsumers` in `GlobalOverview`:
`Object.entries(dataset).map(...).sort((a, b) => b.ttw - a.ttw)`. -/
def rank (dataset : EntityDataset) (yearStr : String) : List RankedEntry :=
  sortDescBy (fun c => c.ttw) (dataset.map (rankEntryOf yearStr))

/-- C7: the ranking is sorted descending by value; ties keep original key
iteration order (restricting the ranking to any fixed value gives exactly the
original entry list restricted to that value); the ranking is a permutation of
the entries; and identical inputs give identical output. -/
theorem rank_sorted_stable_deterministic (D : EntityDataset) (y : String) :
    (rank D y).Pairwise (fun a b => b.ttw ≤ a.ttw) ∧
    (∀ v : ℚ, (rank D y).filter (fun c => decide (c.ttw = v)) =
      (D.map (rankEntryOf y)).filter (fun c => decide (c.ttw = v))) ∧
    (rank D y).Perm (D.map (rankEntryOf y)) ∧
    rank D y = rank D y :=
  ⟨pairwise_sortDescBy _ _, fun v => filter_sortDescBy _ _ v,
    sortDescBy_perm _ _, rfl⟩

/-- Witness for C7 at the demo dataset and year 2023. -/
theorem rank_sorted_stable_deterministic_witness :
    (rank demoDataset "2023").Pairwise (fun a b => b.ttw ≤ a.ttw) ∧
    (∀ v : ℚ, (rank demoDataset "2023").filter (fun c => decide (c.ttw = v)) =
      (demoDataset.map (rankEntryOf "2023")).filter (fun c => decide (c.ttw = v))) ∧
    (rank demoDataset "2023").Perm (demoDataset.map (rankEntryOf "2023")) ∧
    rank demoDataset "2023" = rank demoDataset "2023" :=
  rank_sorted_stable_deterministic demoDataset "2023"

/-- JS `Array.prototype.findIndex`, as an `Option`-valued index of the first
element satisfying the predicate (`-1` becomes `none`). -/
def jsFindIndex {α : Type} (p : α → Bool) : List α → Option ℕ
  | [] => none
  | x :: l => if p x then some 0 else (jsFindIndex p l).map (fun i => i + 1)

theorem jsFindIndex_eq_none {α : Type} {p : α → Bool} {l : List α}
    (h : jsFindIndex p l = none) : ∀ x ∈ l, p x = false := by
  induction l with
  | nil => intro x hx; cases hx
  | cons y l ih =>
    rw [jsFindIndex] at h
    split at h
    · cases h
    · rename_i hy
      intro x hx
      rcases List.mem_cons.mp hx with hxy | hxl
      · rw [hxy]; exact Bool.of_not_eq_true hy
      · exact ih (Option.map_eq_none.mp h) x hxl

theorem jsFindIndex_eq_some {α : Type} {p : α → Bool} {l : List α} {i : ℕ}
    (h : jsFindIndex p l = some i) :
    ∃ hi : i < l.length, p (l.get ⟨i, hi⟩) = true ∧
      ∀ j, (hj : j < i) → p (l.get ⟨j, lt_trans hj hi⟩) = false := by
  induction l generalizing i with
  | nil => cases h
  | cons y l ih =>
    rw [jsFindIndex] at h
    split at h
    · rename_i hy
      injection h with h0
      subst h0
      exact ⟨Nat.succ_pos _, hy, fun j hj => absurd hj (Nat.not_lt_zero j)⟩
    · rename_i hy
      rcases Option.map_eq_some.mp h with ⟨i0, hfi, hi0⟩
      subst hi0
      obtain ⟨hlen, hp, hbefore⟩ := ih hfi
      refine ⟨Nat.succ_lt_succ hlen, hp, ?_⟩
      intro j hj
      match j with
      | 0 => exact Bool.of_not_eq_true hy
      | j + 1 => exact hbefore j (Nat.lt_of_succ_lt_succ hj)

/-- The rank lookup result (`{ rank, total }` in `allRanked`). -/
structure RankInfo where
  rank : ℕ
  total : ℕ
deriving Repr, DecidableEq

/-- `allRanked` from `CommodityExplorer.tsx` lines 87-97: 1-based
`findIndex + 1` in the descending ranking (`0` when absent); total is the
length of the ranking. -/
def allRanked (dataset : EntityDataset) (commodity yearStr : String) : RankInfo :=
  let sorted := rank dataset yearStr
  let r := match jsFindIndex (fun c => c.name == commodity) sorted with
    | some i => i + 1
    | none => 0
  { rank := r, total := sorted.length }

/-- The spec's claimed total, following its words: "total: count of entities
with any data that year". -/
def specEntitiesWithData (dataset : EntityDataset) (yearStr : String) : ℕ :=
  (dataset.filter (fun kv => (jsGet kv.2 yearStr).isSome)).length

/-- C4 counterexample: on `demoDataset` (one key, "USA", whose only record is
for 2023) queried for year "2010", the code's total is 1 — it counts every key
of the dataset — while the count of entities with any data for 2010 is 0. -/
theorem allRanked_total_counts_all_keys :
    (allRanked demoDataset "FRA" "2010").total = 1 ∧
    specEntitiesWithData demoDataset "2010" = 0 ∧
    (allRanked demoDataset "FRA" "2010").total ≠ specEntitiesWithData demoDataset "2010" := by
  decide

/-- C4 (amended): `position` is the 1-based index of the entity in the full
descending ranking, `0` exactly when the entity is absent from the dataset;
`total` is the number of entity keys of the dataset, whether or not those
entities have any data for the requested year. -/
theorem allRanked_position_total (D : EntityDataset) (y id : String) :
    (allRanked D id y).total = D.length ∧
    ((allRanked D id y).rank = 0 ↔ id ∉ D.map (fun kv => kv.1)) ∧
    (∀ i : ℕ, (allRanked D id y).rank = i + 1 →
      ∃ hi : i < (rank D y).length, ((rank D y).get ⟨i, hi⟩).name = id ∧
        ∀ j, (hj : j < i) → ((rank D y).get ⟨j, lt_trans hj hi⟩).name ≠ id) := by
  have hnames : ((rank D y).map (fun c => c.name)).Perm (D.map (fun kv => kv.1)) := by
    have h1 : ((D.map (rankEntryOf y)).map (fun c => c.name)) = D.map (fun kv => kv.1) := by
      rw [List.map_map]; rfl
    exact h1 ▸ (sortDescBy_perm (fun c => c.ttw) (D.map (rankEntryOf y))).map _
  have hrank : (allRanked D id y).rank =
      (match jsFindIndex (fun c => c.name == id) (rank D y) with
        | some i => i + 1
        | none => 0) := rfl
  refine ⟨?_, ?_, ?_⟩
  · show (rank D y).length = D.length
    rw [rank, length_sortDescBy, List.length_map]
  · rcases hf : jsFindIndex (fun c => c.name == id) (rank D y) with _ | i
    · rw [hf] at hrank
      simp only at hrank
      rw [hrank]
      refine iff_of_true rfl ?_
      intro hmem
      have hmem2 : id ∈ (rank D y).map (fun c => c.name) := hnames.mem_iff.mpr hmem
      rcases List.mem_map.mp hmem2 with ⟨c, hc, hcn⟩
      have := jsFindIndex_eq_none hf c hc
      rw [hcn] at this
      simp at this
    · rw [hf] at hrank
      simp only at hrank
      rw [hrank]
      obtain ⟨hi, hp, _⟩ := jsFindIndex_eq_some hf
      refine iff_of_false (Nat.succ_ne_zero i) (not_not_intro ?_)
      apply hnames.mem_iff.mp
      apply List.mem_map.mpr
      refine ⟨(rank D y).get ⟨i, hi⟩, List.get_mem _ _ _, ?_⟩
      exact eq_of_beq hp
  · intro i hri
    rw [hrank] at hri
    rcases hf : jsFindIndex (fun c => c.name == id) (rank D y) with _ | i0
    · rw [hf] at hri
      simp only at hri
      cases hri
    · rw [hf] at hri
      simp only at hri
      have hii : i0 = i := Nat.succ_injective hri
      subst hii
      obtain ⟨hi, hp, hbefore⟩ := jsFindIndex_eq_some hf
      refine ⟨hi, eq_of_beq hp, ?_⟩
      intro j hj hname
      have := hbefore j hj
      rw [hname] at this
      simp at this

/-- Witness for C4 at the demo dataset, a present entity and year 2023. -/
theorem allRanked_position_total_witness :
    (allRanked demoDataset "USA" "2023").total = demoDataset.length ∧
    ((allRanked demoDataset "USA" "2023").rank = 0 ↔
      "USA" ∉ demoDataset.map (fun kv => kv.1)) ∧
    (∀ i : ℕ, (allRanked demoDataset "USA" "2023").rank = i + 1 →
      ∃ hi : i < (rank demoDataset "2023").length,
        ((rank demoDataset "2023").get ⟨i, hi⟩).name = "USA" ∧
        ∀ j, (hj : j < i) →
          ((rank demoDataset "2023").get ⟨j, lt_trans hj hi⟩).name ≠ "USA") :=
  allRanked_position_total demoDataset "2023" "USA"

/-- The accumulator pair `(bilateral, total)` of the `intlShare` loop in
`GlobalOverview` (`CountryExplorer.tsx` lines 269-278): for each entity key,
when the year entry has a bilateral route its ttw is added to both sums, and
when it has a domestic route its ttw is added to the total. -/
def shareSums : EntityDataset → String → ℚ × ℚ
  | [], _ => (0, 0)
  | kv :: rest, y =>
    let s := shareSums rest y
    match jsGet kv.2 y with
    | none => s
    | some yd =>
      let s1 := match yd.bilateral with
        | some m => (s.1 + m.ttw, s.2 + m.ttw)
        | none => s
      match yd.domestic with
      | some m => (s1.1, s1.2 + m.ttw)
      | none => s1

/-- The share calculator: `total > 0 ? (bilateral / total) * 100 : 0`. -/
def intlShare (dataset : EntityDataset) (y : String) : ℚ :=
  let s := shareSums dataset y
  if 0 < s.2 then s.1 / s.2 * 100 else 0

/-- Spec-formula numerator: the sum of `bilateral.ttw` over all entities. -/
def bilateralSum : EntityDataset → String → ℚ
  | [], _ => 0
  | kv :: rest, y =>
    (((jsGet kv.2 y).bind (fun e => e.bilateral)).map (fun m => m.ttw)).getD 0
      + bilateralSum rest y

/-- Spec-formula second summand: the sum of `domestic.ttw` over all entities. -/
def domesticSum : EntityDataset → String → ℚ
  | [], _ => 0
  | kv :: rest, y =>
    (((jsGet kv.2 y).bind (fun e => e.domestic)).map (fun m => m.ttw)).getD 0
      + domesticSum rest y

theorem shareSums_eq (D : EntityDataset) (y : String) :
    shareSums D y = (bilateralSum D y, bilateralSum D y + domesticSum D y) := by
  induction D with
  | nil => simp [shareSums, bilateralSum, domesticSum]
  | cons kv rest ih =>
    rw [shareSums, ih, bilateralSum, domesticSum]
    cases hy : jsGet kv.2 y with
    | none => simp
    | some yd =>
      cases hb : yd.bilateral with
      | none =>
        cases hd : yd.domestic with
        | none => simp [hb, hd]
        | some m =>
          simp only [hb, hd, Option.some_bind, Option.map_some', Option.getD_some,
            Option.map_none', Option.getD_none, Prod.mk.injEq]
          constructor <;> ring
      | some mb =>
        cases hd : yd.domestic with
        | none =>
          simp only [hb, hd, Option.some_bind, Option.map_some', Option.getD_some,
            Option.map_none', Option.getD_none, Prod.mk.injEq]
          constructor <;> ring
        | some md =>
          simp only [hb, hd, Option.some_bind, Option.map_some', Option.getD_some,
            Option.map_none', Option.getD_none, Prod.mk.injEq]
          constructor <;> ring

theorem bilateral_ttw_getD_nonneg {r : YearRecord} {y : String}
    (h : r.all (fun yv => yv.2.nonneg) = true) :
    0 ≤ (((jsGet r y).bind (fun e => e.bilateral)).map (fun m => m.ttw)).getD 0 := by
  cases hy : jsGet r y with
  | none => simp
  | some yd =>
    cases hb : yd.bilateral with
    | none => simp [hb]
    | some m =>
      have hn := (List.all_eq_true.mp h) _ (jsGet_mem hy)
      simp only [YearEntry.nonneg, hb, Option.all_some, Bool.and_eq_true,
        RouteEmissions.nonneg, decide_eq_true_eq] at hn
      simpa [hb] using hn.1.1

theorem domestic_ttw_getD_nonneg {r : YearRecord} {y : String}
    (h : r.all (fun yv => yv.2.nonneg) = true) :
    0 ≤ (((jsGet r y).bind (fun e => e.domestic)).map (fun m => m.ttw)).getD 0 := by
  cases hy : jsGet r y with
  | none => simp
  | some yd =>
    cases hb : yd.domestic with
    | none => simp [hb]
    | some m =>
      have hn := (List.all_eq_true.mp h) _ (jsGet_mem hy)
      simp only [YearEntry.nonneg, hb, Option.all_some, Bool.and_eq_true,
        RouteEmissions.nonneg, decide_eq_true_eq] at hn
      simpa [hb] using hn.2.1

theorem bilateralSum_nonneg {D : EntityDataset} (y : String)
    (hD : datasetNonneg D = true) : 0 ≤ bilateralSum D y := by
  induction D with
  | nil => simp [bilateralSum]
  | cons kv rest ih =>
    simp only [datasetNonneg, List.all_cons, Bool.and_eq_true] at hD
    rw [bilateralSum]
    have h1 := bilateral_ttw_getD_nonneg (r := kv.2) (y := y) hD.1
    have h2 := ih hD.2
    exact add_nonneg h1 h2

theorem domesticSum_nonneg {D : EntityDataset} (y : String)
    (hD : datasetNonneg D = true) : 0 ≤ domesticSum D y := by
  induction D with
  | nil => simp [domesticSum]
  | cons kv rest ih =>
    simp only [datasetNonneg, List.all_cons, Bool.and_eq_true] at hD
    rw [domesticSum]
    have h1 := domestic_ttw_getD_nonneg (r := kv.2) (y := y) hD.1
    have h2 := ih hD.2
    exact add_nonneg h1 h2

theorem shareSums_all_none {D : EntityDataset} {y : String}
    (h : ∀ kv ∈ D, jsGet kv.2 y = none) : shareSums D y = (0, 0) := by
  induction D with
  | nil => rfl
  | cons kv rest ih =>
    rw [shareSums]
    rw [h kv (List.mem_cons_self _ _)]
    exact ih fun kv2 h2 => h kv2 (List.mem_cons_of_mem _ h2)

/-- C5: the international share equals
`100 * bilateralSum / (bilateralSum + domesticSum)` with a `0` fallback when
the denominator is not positive; it lies in `[0, 100]` for non-negative route
metrics; and it is exactly `0` when no entity has any data for the year. -/
theorem intlShare_formula_bounds (D : EntityDataset) (y : String)
    (hD : datasetNonneg D = true) :
    0 ≤ intlShare D y ∧ intlShare D y ≤ 100 ∧
    intlShare D y =
      (if 0 < bilateralSum D y + domesticSum D y
        then 100 * bilateralSum D y / (bilateralSum D y + domesticSum D y)
        else 0) ∧
    ((∀ kv ∈ D, jsGet kv.2 y = none) → intlShare D y = 0) := by
  have hb := bilateralSum_nonneg (D := D) y hD
  have hd := domesticSum_nonneg (D := D) y hD
  have hform : intlShare D y =
      (if 0 < bilateralSum D y + domesticSum D y
        then bilateralSum D y / (bilateralSum D y + domesticSum D y) * 100
        else 0) := by
    rw [intlShare, shareSums_eq]
  refine ⟨?_, ?_, ?_, ?_⟩
  · rw [hform]
    split
    · rename_i hpos
      have := div_nonneg hb (le_of_lt hpos)
      positivity
    · exact le_refl 0
  · rw [hform]
    split
    · rename_i hpos
      have h1 : bilateralSum D y / (bilateralSum D y + domesticSum D y) ≤ 1 :=
        (div_le_one hpos).mpr (le_add_of_nonneg_right hd)
      calc bilateralSum D y / (bilateralSum D y + domesticSum D y) * 100
          ≤ 1 * 100 := by
            apply mul_le_mul_of_nonneg_right h1
            norm_num
        _ = 100 := one_mul 100
    · norm_num
  · rw [hform]
    split
    · ring
    · rfl
  · intro hnone
    rw [intlShare, shareSums_all_none hnone]
    norm_num

/-- Witness for C5 at the demo dataset and year 2023. -/
theorem intlShare_formula_bounds_witness :
    datasetNonneg demoDataset = true ∧
    (0 ≤ intlShare demoDataset "2023" ∧ intlShare demoDataset "2023" ≤ 100 ∧
      intlShare demoDataset "2023" =
        (if 0 < bilateralSum demoDataset "2023" + domesticSum demoDataset "2023"
          then 100 * bilateralSum demoDataset "2023"
            / (bilateralSum demoDataset "2023" + domesticSum demoDataset "2023")
          else 0) ∧
      ((∀ kv ∈ demoDataset, jsGet kv.2 "2023" = none) →
        intlShare demoDataset "2023" = 0)) :=
  ⟨by decide, intlShare_formula_bounds demoDataset "2023" (by decide)⟩

/-- One bilateral trade-flow record (`BilateralFlow` in `types/data.ts`). -/
structure BilateralFlow where
  «from» : String
  «to» : String
  wtw : ℚ
  ttw : ℚ
  wtt : ℚ
  food_miles : ℚ
  cost : ℚ
  n_commodities : ℕ
  dominant_mode : String
deriving Repr, DecidableEq

/-- Year-and-mode bucketed flows (`bilateral_top_flows.json`). -/
abbrev BilateralTopFlows := List (String × List (String × List BilateralFlow))

/-- Commodity-and-year bucketed flows (`bilateral_by_commodity.json`). -/
abbrev BilateralByCommodity := List (String × List (String × List BilateralFlow))

/-- `allFlows` from the `BilateralFlowMap` view: commodity-scoped flows
`bilateralByCommodity[selectedCommodity]?.[yearStr] ?? []` when a commodity is
selected (non-empty string), else the mode bucket
`bilateral[yearStr][modeFilter] ?? []` (empty when the year is unknown). -/
def allFlows (bilateral : BilateralTopFlows) (bilateralByCommodity : BilateralByCommodity)
    (selectedCommodity yearStr modeFilter : String) : List BilateralFlow :=
  if selectedCommodity ≠ "" then
    ((jsGet bilateralByCommodity selectedCommodity).bind (fun m => jsGet m yearStr)).getD []
  else
    match jsGet bilateral yearStr with
    | none => []
    | some byMode => (jsGet byMode modeFilter).getD []

/-- `filteredFlows` from the `BilateralFlowMap` view: with a commodity
selected, first drop flows whose `dominant_mode` misses an active mode filter;
then keep flows with `ttw >= minEmissions` and truncate to the first 100. -/
def filteredFlows (bilateral : BilateralTopFlows) (bilateralByCommodity : BilateralByCommodity)
    (selectedCommodity yearStr modeFilter : String) (minEmissions : ℚ) : List BilateralFlow :=
  let flows0 := allFlows bilateral bilateralByCommodity selectedCommodity yearStr modeFilter
  let flows := if selectedCommodity ≠ "" then
      flows0.filter (fun f =>
        !(decide (modeFilter ≠ "all") && decide (f.dominant_mode ≠ modeFilter)))
    else flows0
  (flows.filter (fun f => decide (minEmissions ≤ f.ttw))).take 100

/-- C3: the flow filter returns at most 100 flows, every returned flow meets
the `ttw >= minEmissions` threshold, the survivors are a sublist of the source
bucket (threshold before truncation, no re-sorting), and an unknown year or
unknown mode yields the empty sequence. -/
theorem filteredFlows_cap_threshold_order (bilateral : BilateralTopFlows)
    (byComm : BilateralByCommodity) (sc y m : String) (minE : ℚ) :
    (filteredFlows bilateral byComm sc y m minE).length ≤ 100 ∧
    (∀ f ∈ filteredFlows bilateral byComm sc y m minE, minE ≤ f.ttw) ∧
    (filteredFlows bilateral byComm sc y m minE).Sublist
      (allFlows bilateral byComm sc y m) ∧
    (sc = "" → jsGet bilateral y = none →
      filteredFlows bilateral byComm sc y m minE = []) ∧
    (sc = "" → ∀ byMode, jsGet bilateral y = some byMode → jsGet byMode m = none →
      filteredFlows bilateral byComm sc y m minE = []) := by
  refine ⟨?_, ?_, ?_, ?_, ?_⟩
  · exact List.length_take_le _ _
  · intro f hf
    have hf2 := (List.take_sublist _ _).subset hf
    have := (List.mem_filter.mp hf2).2
    exact of_decide_eq_true this
  · rw [filteredFlows]
    split
    · exact ((List.take_sublist _ _).trans (List.filter_sublist _)).trans
        (List.filter_sublist _)
    · exact (List.take_sublist _ _).trans (List.filter_sublist _)
  · intro hsc hy
    subst hsc
    simp [filteredFlows, allFlows, hy]
  · intro hsc byMode hy hm
    subst hsc
    simp [filteredFlows, allFlows, hy, hm]

/-- A demo flow used as witness input. -/
def demoFlow : BilateralFlow :=
  { «from» := "CAN", «to» := "USA", wtw := 5, ttw := 5, wtt := 1,
    food_miles := 2, cost := 3, n_commodities := 1, dominant_mode := "land" }

/-- A second demo flow used as witness input. -/
def demoFlow2 : BilateralFlow :=
  { «from» := "USA", «to» := "MEX", wtw := 9, ttw := 8, wtt := 1,
    food_miles := 2, cost := 3, n_commodities := 2, dominant_mode := "maritime" }

/-- Demo year/mode flow buckets used as witness input: year 2023 with an
`all` bucket holding the two demo flows. -/
def demoTopFlows : BilateralTopFlows :=
  [("2023", [("all", [demoFlow, demoFlow2])])]

/-- A flow of the spec's §8 `filterFlows` scenario, parameterized by ttw. -/
def scenarioFlow (t : ℚ) : BilateralFlow :=
  { «from» := "AAA", «to» := "BBB", wtw := t, ttw := t, wtt := 0,
    food_miles := 0, cost := 0, n_commodities := 1, dominant_mode := "air" }

/-- The spec's §8 scenario bucket: year 2023, mode `air`, five flows with ttw
`[50000, 150000, 200000, 90000, 300000]`. -/
def scenarioTopFlows : BilateralTopFlows :=
  [("2023", [("air", [scenarioFlow 50000, scenarioFlow 150000, scenarioFlow 200000,
    scenarioFlow 90000, scenarioFlow 300000])])]

/-- Witness for C3: the §8 scenario keeps exactly the three flows with
`ttw >= 100000`, in original order, and the theorem's guarantees hold there. -/
theorem filteredFlows_cap_threshold_order_witness :
    filteredFlows scenarioTopFlows [] "" "2023" "air" 100000 =
      [scenarioFlow 150000, scenarioFlow 200000, scenarioFlow 300000] ∧
    ((filteredFlows scenarioTopFlows [] "" "2023" "air" 100000).length ≤ 100 ∧
      (∀ f ∈ filteredFlows scenarioTopFlows [] "" "2023" "air" 100000,
        (100000 : ℚ) ≤ f.ttw) ∧
      (filteredFlows scenarioTopFlows [] "" "2023" "air" 100000).Sublist
        (allFlows scenarioTopFlows [] "" "2023" "air") ∧
      ("" = "" → jsGet scenarioTopFlows "2023" = none →
        filteredFlows scenarioTopFlows [] "" "2023" "air" 100000 = []) ∧
      ("" = "" → ∀ byMode, jsGet scenarioTopFlows "2023" = some byMode →
        jsGet byMode "air" = none →
        filteredFlows scenarioTopFlows [] "" "2023" "air" 100000 = [])) :=
  ⟨by decide, filteredFlows_cap_threshold_order scenarioTopFlows [] "" "2023" "air" 100000⟩

/-- The lookup `bilateral[yearStr]?.all ?? []` shared by `topSources` and
`topDest` in `CountryExplorer.tsx`. -/
def flowsAll (bilateral : BilateralTopFlows) (yearStr : String) : List BilateralFlow :=
  ((jsGet bilateral yearStr).bind (fun byMode => jsGet byMode "all")).getD []

/-- One bar-chart entry of the trade-partner lists. -/
structure PartnerEntry where
  name : String
  ttw : ℚ
  iso3 : String
deriving Repr, DecidableEq

/-- `topSources` from `CountryExplorer.tsx` lines 66-74: flows into `iso3`,
sorted descending by ttw, first 10, projected to chart entries. -/
def topSources (bilateral : BilateralTopFlows) (getCountryName : String → String)
    (yearStr iso3 : String) : List PartnerEntry :=
  let flows := flowsAll bilateral yearStr
  ((sortDescBy (fun f => f.ttw) (flows.filter (fun f => decide (f.«to» = iso3)))).take 10).map
    (fun f => { name := getCountryName f.«from», ttw := f.ttw, iso3 := f.«from» })

/-- `topDest` from `CountryExplorer.tsx` lines 77-85: flows out of `iso3`,
sorted descending by ttw, first 10, projected to chart entries. -/
def topDest (bilateral : BilateralTopFlows) (getCountryName : String → String)
    (yearStr iso3 : String) : List PartnerEntry :=
  let flows := flowsAll bilateral yearStr
  ((sortDescBy (fun f => f.ttw) (flows.filter (fun f => decide (f.«from» = iso3)))).take 10).map
    (fun f => { name := getCountryName f.«to», ttw := f.ttw, iso3 := f.«to» })

/-- C10: each top-partner list has at most 10 entries; every import-source
entry comes from a flow into the selected country and every export-destination
entry from a flow out of it; both lists are sorted descending by ttw. -/
theorem topPartners_cap_origin_sorted (bilateral : BilateralTopFlows)
    (g : String → String) (y iso3 : String) :
    (topSources bilateral g y iso3).length ≤ 10 ∧
    (∀ e ∈ topSources bilateral g y iso3, ∃ f ∈ flowsAll bilateral y,
      f.«to» = iso3 ∧ e = { name := g f.«from», ttw := f.ttw, iso3 := f.«from» }) ∧
    (topSources bilateral g y iso3).Pairwise (fun a b => b.ttw ≤ a.ttw) ∧
    (topDest bilateral g y iso3).length ≤ 10 ∧
    (∀ e ∈ topDest bilateral g y iso3, ∃ f ∈ flowsAll bilateral y,
      f.«from» = iso3 ∧ e = { name := g f.«to», ttw := f.ttw, iso3 := f.«to» }) ∧
    (topDest bilateral g y iso3).Pairwise (fun a b => b.ttw ≤ a.ttw) := by
  refine ⟨?_, ?_, ?_, ?_, ?_, ?_⟩
  · rw [topSources]
    rw [List.length_map]
    exact List.length_take_le _ _
  · intro e he
    rw [topSources] at he
    rcases List.mem_map.mp he with ⟨f, hf, hfe⟩
    have hf2 : f ∈ sortDescBy (fun f => f.ttw)
        ((flowsAll bilateral y).filter (fun f => decide (f.«to» = iso3))) :=
      (List.take_sublist _ _).subset hf
    have hf3 := mem_sortDescBy.mp hf2
    rcases List.mem_filter.mp hf3 with ⟨hmem, hdec⟩
    exact ⟨f, hmem, of_decide_eq_true hdec, hfe.symm⟩
  · rw [topSources]
    rw [List.pairwise_map]
    exact List.Pairwise.sublist (List.take_sublist _ _) (pairwise_sortDescBy _ _)
  · rw [topDest]
    rw [List.length_map]
    exact List.length_take_le _ _
  · intro e he
    rw [topDest] at he
    rcases List.mem_map.mp he with ⟨f, hf, hfe⟩
    have hf2 : f ∈ sortDescBy (fun f => f.ttw)
        ((flowsAll bilateral y).filter (fun f => decide (f.«from» = iso3))) :=
      (List.take_sublist _ _).subset hf
    have hf3 := mem_sortDescBy.mp hf2
    rcases List.mem_filter.mp hf3 with ⟨hmem, hdec⟩
    exact ⟨f, hmem, of_decide_eq_true hdec, hfe.symm⟩
  · rw [topDest]
    rw [List.pairwise_map]
    exact List.Pairwise.sublist (List.take_sublist _ _) (pairwise_sortDescBy _ _)

/-- Witness for C10 at the demo flow buckets and the identity name lookup. -/
theorem topPartners_cap_origin_sorted_witness :
    (topSources demoTopFlows (fun s => s) "2023" "USA").length ≤ 10 ∧
    (∀ e ∈ topSources demoTopFlows (fun s => s) "2023" "USA",
      ∃ f ∈ flowsAll demoTopFlows "2023",
        f.«to» = "USA" ∧
        e = { name := f.«from», ttw := f.ttw, iso3 := f.«from» }) ∧
    (topSources demoTopFlows (fun s => s) "2023" "USA").Pairwise
      (fun a b => b.ttw ≤ a.ttw) ∧
    (topDest demoTopFlows (fun s => s) "2023" "USA").length ≤ 10 ∧
    (∀ e ∈ topDest demoTopFlows (fun s => s) "2023" "USA",
      ∃ f ∈ flowsAll demoTopFlows "2023",
        f.«from» = "USA" ∧
        e = { name := f.«to», ttw := f.ttw, iso3 := f.«to» }) ∧
    (topDest demoTopFlows (fun s => s) "2023" "USA").Pairwise
      (fun a b => b.ttw ≤ a.ttw) :=
  topPartners_cap_origin_sorted demoTopFlows (fun s => s) "2023" "USA"

/-- The sequential palette from `utils/colors.ts` (8 entries). -/
def SEQUENTIAL_BLUE : List String :=
  ["#0a1628", "#0f2847", "#143a66", "#1a4d85", "#2060a5", "#2874c5", "#3a8ee5", "#4A9EFF"]

/-- `getSequentialColor` from `utils/colors.ts` lines 15-20: the mid-palette
entry `SEQUENTIAL_BLUE[4]` when `max === min`, else the bucket at
`Math.floor(clamp((value - min) / (max - min), 0, 1) * (length - 1))`. -/
def getSequentialColor (value mn mx : ℚ) : String :=
  if mx = mn then SEQUENTIAL_BLUE.getD 4 ""
  else
    let clamped := min 1 (max 0 ((value - mn) / (mx - mn)))
    let index := (⌊clamped * ((SEQUENTIAL_BLUE.length : ℚ) - 1)⌋).toNat
    SEQUENTIAL_BLUE.getD index ""

/-- C6: the normalizer always returns a palette member (the computed bucket
index is in bounds), and in the degenerate `min == max` case it returns the
fixed mid-palette entry `"#2060a5"` (`SEQUENTIAL_BLUE[4]`) regardless of the
value, with no division by zero. -/
theorem getSequentialColor_palette_member (value mn mx : ℚ) :
    getSequentialColor value mn mx ∈ SEQUENTIAL_BLUE ∧
    (mn = mx → getSequentialColor value mn mx = "#2060a5") := by
  constructor
  · rw [getSequentialColor]
    split
    · decide
    · set x := min 1 (max 0 ((value - mn) / (mx - mn))) with hxdef
      have hx1 : x ≤ 1 := min_le_left _ _
      have hx0 : 0 ≤ x := le_min (by norm_num) (le_max_left 0 _)
      have hlen : ((SEQUENTIAL_BLUE.length : ℚ) - 1) = 7 := by
        norm_num [SEQUENTIAL_BLUE]
      have hmul : x * ((SEQUENTIAL_BLUE.length : ℚ) - 1) ≤ 7 := by
        rw [hlen]
        nlinarith
      have hfl : ⌊x * ((SEQUENTIAL_BLUE.length : ℚ) - 1)⌋ ≤ 7 := by
        calc ⌊x * ((SEQUENTIAL_BLUE.length : ℚ) - 1)⌋
            ≤ ⌊(7 : ℚ)⌋ := Int.floor_le_floor hmul
          _ = 7 := Int.floor_ofNat 7
      have hidx : (⌊x * ((SEQUENTIAL_BLUE.length : ℚ) - 1)⌋).toNat
          < SEQUENTIAL_BLUE.length := by
        have h7 : (⌊x * ((SEQUENTIAL_BLUE.length : ℚ) - 1)⌋).toNat ≤ 7 :=
          Int.toNat_le.mpr hfl
        have h8 : SEQUENTIAL_BLUE.length = 8 := by decide
        omega
      show SEQUENTIAL_BLUE.getD
          (⌊x * ((SEQUENTIAL_BLUE.length : ℚ) - 1)⌋).toNat "" ∈ SEQUENTIAL_BLUE
      rw [List.getD_eq_getElem SEQUENTIAL_BLUE "" hidx]
      exact List.getElem_mem _
  · intro h
    rw [getSequentialColor, if_pos h.symm]
    rfl

/-- Witness for C6 at the degenerate bounds `min = max = 3`. -/
theorem getSequentialColor_palette_member_witness :
    getSequentialColor 5 3 3 ∈ SEQUENTIAL_BLUE ∧
    ((3 : ℚ) = 3 → getSequentialColor 5 3 3 = "#2060a5") :=
  getSequentialColor_palette_member 5 3 3

/-- Per-mode transport factor (`TransportModeFactor` in `types/data.ts`). -/
structure TransportModeFactor where
  wtw : ℚ
  ttw : ℚ
  distance : ℚ
  routes : ℚ
deriving Repr, DecidableEq

/-- One commodity's per-mode factor table. -/
abbrev FactorTable := List (String × TransportModeFactor)

/-- The `transport_factors.json` table: commodity name to per-mode factors. -/
abbrev TransportFactors := List (String × FactorTable)

/-- The fallback query token
`commodity.toLowerCase().split(',')[0].split(' ')[0]`. -/
def queryToken (commodity : String) : String :=
  ((((commodity.toLower).splitOn ",").headD "").splitOn " ").headD ""

/-- JS `String.prototype.includes`: substring occurrence (always true for the
empty needle). -/
def jsIncludes (s t : String) : Bool :=
  decide (t = "") || decide (2 ≤ (s.splitOn t).length)

/-- The two-stage factor resolution of `factors` in `CommodityExplorer.tsx`
lines 64-74: `let tf = transportFactors[commodity]` first, and only `if (!tf)`
scan the keys for the first whose lowercase form contains the query token,
indexing the table at that key. -/
def factorsLookup (transportFactors : TransportFactors) (commodity : String) :
    Option FactorTable :=
  match jsGet transportFactors commodity with
  | some tf => some tf
  | none =>
    match (transportFactors.map (fun kv => kv.1)).find?
        (fun k => jsIncludes k.toLower (queryToken commodity)) with
    | some k => jsGet transportFactors k
    | none => none

/-- C9: whenever the commodity name is itself a key of the transport-factors
table, the lookup returns that exact key's entry — the substring fallback is
consulted only when the exact-key lookup fails, in which case the result is
exactly the fallback scan's. -/
theorem factorsLookup_exact_first (tf : TransportFactors) (c : String) :
    (∀ t, jsGet tf c = some t → factorsLookup tf c = some t) ∧
    (jsGet tf c = none →
      factorsLookup tf c =
        (match (tf.map (fun kv => kv.1)).find?
            (fun k => jsIncludes k.toLower (queryToken c)) with
          | some k => jsGet tf k
          | none => none)) := by
  constructor
  · intro t h
    rw [factorsLookup, h]
  · intro h
    rw [factorsLookup, h]

/-- A demo factor entry. -/
def wheatFactors : FactorTable := [("land", { wtw := 1, ttw := 2, distance := 3, routes := 4 })]

/-- A second demo factor entry whose key would also match the fallback scan. -/
def wheatFlourFactors : FactorTable := [("air", { wtw := 5, ttw := 6, distance := 7, routes := 8 })]

/-- Demo transport-factors table: the fallback-matching key "Wheat flour"
comes first, the exact key "Wheat" second. -/
def demoFactors : TransportFactors :=
  [("Wheat flour", wheatFlourFactors), ("Wheat", wheatFactors)]

/-- Witness for C9: the exact key "Wheat" wins over the earlier
fallback-matching key "Wheat flour". -/
theorem factorsLookup_exact_first_witness :
    jsGet demoFactors "Wheat" = some wheatFactors ∧
    factorsLookup demoFactors "Wheat" = some wheatFactors :=
  ⟨by decide, (factorsLookup_exact_first demoFactors "Wheat").1 wheatFactors (by decide)⟩

end FoodEmissions
